import Mathlib

/-!
Shallow embedding of `bin/shared/fs_utils.py`: gitignore pattern compilation
and matching (`GitIgnorePattern`), `.gitignore` parsing (`parse_gitignore`),
last-match-wins resolution (`is_ignored_by_gitignore`), binary-content
detection (`is_binary_file`), and the pruning directory walker
(`walk_filtered_files`).

Paths, pattern lines and directory names are modelled as `List Char` (the
character sequence of the Python `str`).  File contents are `List Nat`
(bytes); a file whose open/read raises `IOError`/`OSError` is modelled as
contents `none`.  File-system reads performed by the Python code (the
`.gitignore` file, the directory tree) are modelled as explicit inputs.
-/

namespace FsUtils

/-- The character sequence of a string literal (used to write concrete
paths and patterns). -/
def str (s : String) : List Char := s.data

/-!
## Glob-to-regex translation

`GitIgnorePattern._pattern_to_regex` escapes the pattern with `re.escape`
and then rewrites, left to right, `\*\*` to `.*`, `\*` to `[^/]*` and `\?`
to `[^/]`.  Since `re.escape` puts a backslash before every `*` and `?`,
this is exactly: two adjacent stars in the raw pattern become `.*`, a
remaining single star becomes `[^/]*`, a `?` becomes `[^/]`, and every
other character is matched literally.  We embed the resulting regex as a
token list.
-/

/-- One atom of the regex produced by `_pattern_to_regex`. -/
inductive GlobTok where
  /-- a literal character (produced by `re.escape`) -/
  | lit (c : Char)
  /-- `[^/]*`, from a single `*` -/
  | star
  /-- `[^/]`, from `?` -/
  | qmark
  /-- `.*`, from `**` (Python `.` does not match a newline) -/
  | dstar
deriving DecidableEq, Repr

/-- Tokenisation of the (marker-stripped) pattern, realising the
`re.escape` + `replace` pipeline of `_pattern_to_regex`. -/
def tokenize : List Char → List GlobTok
  | [] => []
  | '*' :: '*' :: rest => .dstar :: tokenize rest
  | '*' :: rest => .star :: tokenize rest
  | '?' :: rest => .qmark :: tokenize rest
  | c :: rest => .lit c :: tokenize rest

/-- The trailing group of the compiled regex: `($|/)` for ordinary
patterns, `(/|$)` for directory-only ones — the same language either way:
the match must be followed by end-of-string or a `/`. -/
def suffixOk : List Char → Bool
  | [] => true
  | c :: _ => c == '/'

/-- Does the token body match some prefix of the string such that the
remainder starts with `/` or is empty (the `($|/)` group)?  Backtracking
gives the existential semantics of Python `re`.  The recursion is driven
by a fuel counter so that the definition reduces by kernel computation;
every recursive call strictly decreases `ts.length + s.length`, so with
the initial fuel `ts.length + s.length + 1` (see `matchBody`) the `0`
branch is never reached. -/
def matchBodyFuel : Nat → List GlobTok → List Char → Bool
  | 0, _, _ => false
  | _ + 1, [], s => suffixOk s
  | _ + 1, .lit _ :: _, [] => false
  | fuel + 1, .lit c :: ts, x :: s => x == c && matchBodyFuel fuel ts s
  | _ + 1, .qmark :: _, [] => false
  | fuel + 1, .qmark :: ts, x :: s => !(x == '/') && matchBodyFuel fuel ts s
  | fuel + 1, .star :: ts, s =>
      matchBodyFuel fuel ts s ||
        (match s with
         | [] => false
         | x :: s' => !(x == '/') && matchBodyFuel fuel (.star :: ts) s')
  | fuel + 1, .dstar :: ts, s =>
      matchBodyFuel fuel ts s ||
        (match s with
         | [] => false
         | x :: s' => !(x == '\n') && matchBodyFuel fuel (.dstar :: ts) s')

/-- `matchBodyFuel` with enough fuel never to hit the `0` branch. -/
def matchBody (ts : List GlobTok) (s : List Char) : Bool :=
  matchBodyFuel (ts.length + s.length + 1) ts s

/-- `re.search` of `(^|/)body($|/)` restricted to the `/` alternative:
does the body match starting right after some `/` of `s`? -/
def searchAfterSlash (ts : List GlobTok) : List Char → Bool
  | [] => false
  | c :: rest => (c == '/' && matchBody ts rest) || searchAfterSlash ts rest

/-- `re.search` of the compiled regex: `^body($|/)` when the pattern is
absolute (a `^`-anchored regex can only match at the start), otherwise
`(^|/)body($|/)` — at the start or right after any `/`. -/
def searchRegex (is_absolute : Bool) (ts : List GlobTok) (s : List Char) : Bool :=
  if is_absolute then matchBody ts s
  else matchBody ts s || searchAfterSlash ts s

/-!
## GitIgnorePattern
-/

/-- The compiled form of one gitignore line (`GitIgnorePattern.__init__`):
the raw line, the `!`/ trailing-`/` / leading-`/` markers stripped in that
order, and the token list of the remaining glob. -/
structure GitIgnorePattern where
  pattern : List Char
  is_negated : Bool
  is_dir_only : Bool
  is_absolute : Bool
  toks : List GlobTok
deriving DecidableEq, Repr

/-- `GitIgnorePattern.__init__`: strip a leading `!` (negation), then a
trailing `/` (directory-only), then a leading `/` (absolute), and compile
the rest. -/
def GitIgnorePattern.compile (line : List Char) : GitIgnorePattern :=
  let is_negated := line.head? == some '!'
  let p1 := if is_negated then line.tail else line
  let is_dir_only := p1.getLast? == some '/'
  let p2 := if is_dir_only then p1.dropLast else p1
  let is_absolute := p2.head? == some '/'
  let p3 := if is_absolute then p2.tail else p2
  { pattern := line, is_negated := is_negated, is_dir_only := is_dir_only,
    is_absolute := is_absolute, toks := tokenize p3 }

/-- `GitIgnorePattern.matches`: a directory-only pattern never matches a
non-directory; otherwise run `re.search` of the compiled regex. -/
def GitIgnorePattern.matches (p : GitIgnorePattern) (path : List Char)
    (is_dir : Bool := false) : Bool :=
  if p.is_dir_only && !is_dir then false
  else searchRegex p.is_absolute p.toks path

/-!
## parse_gitignore and is_ignored_by_gitignore
-/

/-- Python `str.strip()` whitespace (iterating a file yields lines that
still carry their trailing newline; `strip` removes it). -/
def isPyWS (c : Char) : Bool :=
  c == ' ' || c == '\t' || c == '\n' || c == '\r' || c == '\x0b' || c == '\x0c'

/-- Python `str.strip()`: drop leading and trailing whitespace. -/
def pyStrip (s : List Char) : List Char :=
  ((s.dropWhile isPyWS).reverse.dropWhile isPyWS).reverse

/-- `parse_gitignore`: `none` models `not os.path.exists(gitignore_path)`
(return `[]`); `some lines` models the lines the file iterator yields.
Each line is stripped; blank lines and `#` comments are skipped; the rest
are compiled in file order. -/
def parse_gitignore (gitignoreFile : Option (List (List Char))) :
    List GitIgnorePattern :=
  match gitignoreFile with
  | none => []
  | some lines =>
    lines.filterMap fun l =>
      let line := pyStrip l
      if line.isEmpty || line.head? == some '#' then none
      else some (GitIgnorePattern.compile line)

/-- `is_ignored_by_gitignore`: early `False` on an empty pattern list,
otherwise a running `ignored` flag over the patterns in file order, set to
`not pattern.is_negated` by every pattern that matches. -/
def is_ignored_by_gitignore (rel_path : List Char) (is_dir : Bool)
    (gitignore_patterns : List GitIgnorePattern) : Bool :=
  if gitignore_patterns.isEmpty then false
  else
    gitignore_patterns.foldl
      (fun ignored pattern =>
        if pattern.matches rel_path is_dir then !pattern.is_negated else ignored)
      false

/-- The match-resolution rule in the words of the specification: iterate
the patterns in file order, overwriting a running `ignored` boolean with
`not pattern.negated` for every pattern that matches, no early exit,
defaulting to "not ignored" when no pattern matches. -/
def isIgnoredSpec (rel_path : List Char) (is_dir : Bool)
    (P : List GitIgnorePattern) : Bool :=
  P.foldl
    (fun ignored pattern =>
      if pattern.matches rel_path is_dir then !pattern.is_negated else ignored)
    false

/-!
## is_binary_file

The strict Python `bytes.decode('utf-8')` accepts exactly well-formed
UTF-8: no continuation-byte errors, no overlong forms, no surrogates
(U+D800–U+DFFF), nothing above U+10FFFF, no truncated final sequence.
-/

/-- A UTF-8 continuation byte, `0x80`–`0xBF`. -/
def isCont (b : Nat) : Bool := 0x80 ≤ b && b ≤ 0xBF

/-- Strict UTF-8 validity of a byte sequence, as decided by Python
`bytes.decode('utf-8')`. -/
def utf8Decodable : List Nat → Bool
  | [] => true
  | b :: rest =>
    if b ≤ 0x7F then utf8Decodable rest
    else if 0xC2 ≤ b && b ≤ 0xDF then
      match rest with
      | b1 :: r => isCont b1 && utf8Decodable r
      | [] => false
    else if b == 0xE0 then
      match rest with
      | b1 :: b2 :: r => (0xA0 ≤ b1 && b1 ≤ 0xBF) && isCont b2 && utf8Decodable r
      | _ => false
    else if (0xE1 ≤ b && b ≤ 0xEC) || b == 0xEE || b == 0xEF then
      match rest with
      | b1 :: b2 :: r => isCont b1 && isCont b2 && utf8Decodable r
      | _ => false
    else if b == 0xED then
      match rest with
      | b1 :: b2 :: r => (0x80 ≤ b1 && b1 ≤ 0x9F) && isCont b2 && utf8Decodable r
      | _ => false
    else if b == 0xF0 then
      match rest with
      | b1 :: b2 :: b3 :: r =>
          (0x90 ≤ b1 && b1 ≤ 0xBF) && isCont b2 && isCont b3 && utf8Decodable r
      | _ => false
    else if 0xF1 ≤ b && b ≤ 0xF3 then
      match rest with
      | b1 :: b2 :: b3 :: r => isCont b1 && isCont b2 && isCont b3 && utf8Decodable r
      | _ => false
    else if b == 0xF4 then
      match rest with
      | b1 :: b2 :: b3 :: r =>
          (0x80 ≤ b1 && b1 ≤ 0x8F) && isCont b2 && isCont b3 && utf8Decodable r
      | _ => false
    else false

/-- `is_binary_file`: `contents = none` models an `IOError`/`OSError` on
open or read (the `except` branch returns `True`); otherwise read at most
`sample_size` bytes, classify binary on a null byte, then on a UTF-8
decode failure. -/
def is_binary_file (contents : Option (List Nat))
    (sample_size : Nat := 8192) : Bool :=
  match contents with
  | none => true
  | some bytes =>
    let sample := bytes.take sample_size
    if sample.contains 0 then true
    else if utf8Decodable sample then false
    else true

/-!
## walk_filtered_files

The directory tree handed to `os.walk` is modelled as a list of entries;
`os.walk` is top-down, so each directory's files are yielded before its
(kept) subdirectories are descended into, in list order.  The walker
yields `(abs_path, rel_path)` pairs where `abs_path` is always
`root_dir ++ "/" ++ rel_path`; the model yields the `rel_path` component.
-/

/-- `COMMON_IGNORE_DIRS` (a Python set literal; membership is all that is
used, so duplicates are irrelevant). -/
def COMMON_IGNORE_DIRS : List (List Char) :=
  [str "node_modules", str "dist", str "build", str ".next", str ".nuxt",
   str "coverage",
   str "__pycache__", str "venv", str "env", str ".env", str ".venv",
   str ".pytest_cache", str ".mypy_cache", str "site-packages", str ".tox",
   str ".eggs", str "egg-info",
   str "vendor", str "bin",
   str "composer.phar",
   str "target", str "out", str ".gradle", str ".mvn", str "classes",
   str "tmp", str "log", str ".bundle",
   str "migrations", str "staticfiles",
   str "obj", str "packages",
   str ".cache", str "cache", str ".sass-cache"]

/-- One entry of a directory: a file with its byte contents (`none` =
unreadable), or a subdirectory with its entries. -/
inductive FSEntry where
  | file (name : List Char) (contents : Option (List Nat))
  | dir (name : List Char) (children : List FSEntry)

/-- `FilterConfig`: the four keyword arguments of `walk_filtered_files`. -/
structure Config where
  show_hidden : Bool := false
  show_deps : Bool := false
  respect_gitignore : Bool := true
  binary_check : Bool := true
deriving DecidableEq, Repr

/-- `os.path.relpath(os.path.join(dirpath, name), root_dir)`: the name at
the root, `base ++ "/" ++ name` below it. -/
def relJoin (base name : List Char) : List Char :=
  if base.isEmpty then name else base ++ '/' :: name

/-- The in-place `dirnames` filter of `walk_filtered_files`: a directory
is pruned when it is hidden (unless `show_hidden`), in
`COMMON_IGNORE_DIRS` (unless `show_deps`), or gitignore-ignored (when
`respect_gitignore` and the pattern list is non-empty, matching the
truthiness test `if respect_gitignore and gitignore_patterns and ...`). -/
def prunesDir (cfg : Config) (pats : List GitIgnorePattern)
    (dirname rel_path : List Char) : Bool :=
  (dirname.head? == some '.' && !cfg.show_hidden)
  || (COMMON_IGNORE_DIRS.contains dirname && !cfg.show_deps)
  || (cfg.respect_gitignore && !pats.isEmpty
      && is_ignored_by_gitignore rel_path true pats)

/-- The per-file filter of `walk_filtered_files`: skip hidden files
(unless `show_hidden`), gitignore-ignored files, and—when `binary_check`—
files `is_binary_file` classifies binary. -/
def skipsFile (cfg : Config) (pats : List GitIgnorePattern)
    (filename rel_path : List Char) (contents : Option (List Nat)) : Bool :=
  (filename.head? == some '.' && !cfg.show_hidden)
  || (cfg.respect_gitignore && !pats.isEmpty
      && is_ignored_by_gitignore rel_path false pats)
  || (cfg.binary_check && is_binary_file contents)

/-- The relative paths yielded for the files of one directory (the
`for filename in filenames` loop), in list order. -/
def filesOut (cfg : Config) (pats : List GitIgnorePattern)
    (base : List Char) (es : List FSEntry) : List (List Char) :=
  es.filterMap fun e =>
    match e with
    | .file n c =>
        if skipsFile cfg pats n (relJoin base n) c then none
        else some (relJoin base n)
    | .dir _ _ => none

mutual

/-- What one entry of a directory contributes beyond that directory's own
files: nothing for a file; for a subdirectory, nothing when the in-place
filter prunes it (the subtree is never descended into), otherwise the
subdirectory's files followed by its own subtrees. -/
def walkEntryDirs (cfg : Config) (pats : List GitIgnorePattern)
    (base : List Char) : FSEntry → List (List Char)
  | .file _ _ => []
  | .dir n ch =>
      if prunesDir cfg pats n (relJoin base n) then []
      else
        filesOut cfg pats (relJoin base n) ch
          ++ walkDirs cfg pats (relJoin base n) ch

/-- The walk below one directory level: each subdirectory is checked by
the in-place filter before any descent. -/
def walkDirs (cfg : Config) (pats : List GitIgnorePattern)
    (base : List Char) : List FSEntry → List (List Char)
  | [] => []
  | e :: es => walkEntryDirs cfg pats base e ++ walkDirs cfg pats base es

end

/-- The stream of relative paths for a directory whose own relative path
is `base` and whose entries are `es`: the directory's surviving files,
then the kept subtrees (the `os.walk` top-down order). -/
def walkFrom (cfg : Config) (pats : List GitIgnorePattern)
    (base : List Char) (es : List FSEntry) : List (List Char) :=
  filesOut cfg pats base es ++ walkDirs cfg pats base es

/-- `walk_filtered_files`: parse the root `.gitignore` once when
`respect_gitignore` (the file read is modelled by `gitignoreFile`, the
lines of `root_dir/.gitignore`, or `none` when it does not exist), then
walk the tree from the root. -/
def walk_filtered_files (root : List FSEntry)
    (gitignoreFile : Option (List (List Char))) (cfg : Config) :
    List (List Char) :=
  let pats :=
    if cfg.respect_gitignore then parse_gitignore gitignoreFile else []
  walkFrom cfg pats [] root

end FsUtils


namespace FsUtils

/-!
## Shared lemmas and concrete data
-/

/-- The pattern list compiled from the lines `"*.log"`, `"!keep.log"`. -/
def logKeepPats : List GitIgnorePattern :=
  [GitIgnorePattern.compile (str "*.log"),
   GitIgnorePattern.compile (str "!keep.log")]

/-- `walkDirs` distributes over appending entry lists. -/
theorem walkDirs_append (cfg : Config) (pats : List GitIgnorePattern)
    (base : List Char) (l₁ l₂ : List FSEntry) :
    walkDirs cfg pats base (l₁ ++ l₂)
      = walkDirs cfg pats base l₁ ++ walkDirs cfg pats base l₂ := by
  induction l₁ with
  | nil => simp [walkDirs]
  | cons e es ih => simp [walkDirs, ih]

/-- `filesOut` distributes over appending entry lists. -/
theorem filesOut_append (cfg : Config) (pats : List GitIgnorePattern)
    (base : List Char) (l₁ l₂ : List FSEntry) :
    filesOut cfg pats base (l₁ ++ l₂)
      = filesOut cfg pats base l₁ ++ filesOut cfg pats base l₂ := by
  simp [filesOut, List.filterMap_append]

/-!
## Claims
-/

/-- C1: `is_ignored_by_gitignore p d P` equals the verdict obtained by
iterating `P` in file order, overwriting a running `ignored` boolean with
`not pattern.negated` for every pattern that matches `(p, d)`, with no
early exit (the last matching pattern decides) and `false` when no
pattern matches; and for `P` compiled from `["*.log", "!keep.log"]`,
`"keep.log"` is not ignored while `"other.log"` is. -/
theorem is_ignored_last_match_wins :
    (∀ (p : List Char) (d : Bool) (P : List GitIgnorePattern),
        is_ignored_by_gitignore p d P = isIgnoredSpec p d P)
    ∧ is_ignored_by_gitignore (str "keep.log") false logKeepPats = false
    ∧ is_ignored_by_gitignore (str "other.log") false logKeepPats = true := by
  refine ⟨fun p d P => ?_, by decide, by decide⟩
  cases P <;> simp [is_ignored_by_gitignore, isIgnoredSpec]

/-- C2 (counterexample): against the claim, the pattern `"*.tmp"` does
match `"dir/sub.tmp/c"` (the compiled regex may stop at a following
slash, treating `sub.tmp` as a directory prefix), and the pattern
`"**/cache"` does not match the bare path `"cache"` (the translation of
`**` keeps the following literal `/`, so a separator is required before
`cache`). -/
theorem wildcard_semantics_counterexample :
    (GitIgnorePattern.compile (str "*.tmp")).matches (str "dir/sub.tmp/c") false = true
    ∧ (GitIgnorePattern.compile (str "**/cache")).matches (str "cache") false = false := by
  decide

/-- C2 (amended): the pattern `"*.tmp"` matches `"a.tmp"`, `"dir/b.tmp"`
and also `"dir/sub.tmp/c"`; the pattern `"**/cache"` matches `"a/cache"`
and `"a/b/cache"` but not the bare `"cache"`. -/
theorem wildcard_semantics_amended :
    (GitIgnorePattern.compile (str "*.tmp")).matches (str "a.tmp") false = true
    ∧ (GitIgnorePattern.compile (str "*.tmp")).matches (str "dir/b.tmp") false = true
    ∧ (GitIgnorePattern.compile (str "*.tmp")).matches (str "dir/sub.tmp/c") false = true
    ∧ (GitIgnorePattern.compile (str "**/cache")).matches (str "cache") false = false
    ∧ (GitIgnorePattern.compile (str "**/cache")).matches (str "a/cache") false = true
    ∧ (GitIgnorePattern.compile (str "**/cache")).matches (str "a/b/cache") false = true := by
  decide

/-- C5: the root-anchored pattern `"/README.md"` matches `"README.md"`
but not `"sub/README.md"`, while the non-anchored pattern `"README.md"`
matches both. -/
theorem anchoring_semantics :
    (GitIgnorePattern.compile (str "/README.md")).matches (str "README.md") false = true
    ∧ (GitIgnorePattern.compile (str "/README.md")).matches (str "sub/README.md") false = false
    ∧ (GitIgnorePattern.compile (str "README.md")).matches (str "README.md") false = true
    ∧ (GitIgnorePattern.compile (str "README.md")).matches (str "sub/README.md") false = true := by
  decide

/-- C6: every pattern whose raw line ends with `/` is directory-only and
never matches with `is_dir = false`; in particular `"build/"` does not
match the path `"build"` as a file but does match it as a directory. -/
theorem dir_only_never_matches_file (line p : List Char)
    (h : line.getLast? = some '/') :
    (GitIgnorePattern.compile line).matches p false = false
    ∧ (GitIgnorePattern.compile (str "build/")).matches (str "build") false = false
    ∧ (GitIgnorePattern.compile (str "build/")).matches (str "build") true = true := by
  refine ⟨?_, by decide, by decide⟩
  have hdir : (GitIgnorePattern.compile line).is_dir_only = true := by
    show ((if line.head? == some '!' then line.tail else line).getLast?
        == some '/') = true
    cases line with
    | nil => simp at h
    | cons c t =>
      by_cases hc : c = '!'
      · subst hc
        cases t with
        | nil => simp at h
        | cons c' t' =>
          rw [List.getLast?_cons_cons] at h
          simp [h]
      · simp [hc, h]
  simp [GitIgnorePattern.matches, hdir]

/-- C6 witness: the pattern `"build/"` applied at the concrete inputs of
the claim. -/
theorem dir_only_never_matches_file_witness :
    (GitIgnorePattern.compile (str "build/")).matches (str "build") false = false
    ∧ (GitIgnorePattern.compile (str "build/")).matches (str "build") false = false
    ∧ (GitIgnorePattern.compile (str "build/")).matches (str "build") true = true :=
  dir_only_never_matches_file (str "build/") (str "build") (by decide)

/-- The bytes of an ASCII string (used to write concrete file contents). -/
def bytesOfAscii (s : String) : List Nat := s.data.map Char.toNat

/-- The root directory of the end-to-end scenario: a `.gitignore`, the
files `a.log`, `important.log`, `b.txt`, and `node_modules/x.js`. -/
def demoTree : List FSEntry :=
  [.file (str ".gitignore")
      (some (bytesOfAscii "*.log\n!important.log\nnode_modules/\n")),
   .file (str "a.log") (some (bytesOfAscii "aaa\n")),
   .file (str "important.log") (some (bytesOfAscii "keep me\n")),
   .file (str "b.txt") (some (bytesOfAscii "bbb\n")),
   .dir (str "node_modules") [.file (str "x.js") (some (bytesOfAscii "x\n"))]]

/-- The lines of the scenario's `.gitignore`, as the file iterator yields
them (trailing newlines included; `parse_gitignore` strips them). -/
def demoGitignoreLines : List (List Char) :=
  [str "*.log\n", str "!important.log\n", str "node_modules/\n"]

/-- C3: on the scenario root (`.gitignore` = `"*.log\n!important.log\n`
`node_modules/\n"`, files `a.log`, `important.log`, `b.txt`, directory
`node_modules/x.js`), the walk with `showHidden = false`,
`showDependencyDirs = false`, `respectGitignore = true`,
`checkBinary = false` yields exactly the set `{important.log, b.txt}`. -/
theorem end_to_end_walk :
    (walk_filtered_files demoTree (some demoGitignoreLines)
        ⟨false, false, true, false⟩).toFinset
      = {str "important.log", str "b.txt"} := by
  decide

/-- C4: a subdirectory the walker excludes (hidden without `show_hidden`,
in `COMMON_IGNORE_DIRS` without `show_deps`, or gitignore-ignored with
`respect_gitignore` — the `prunesDir` disjunction) contributes nothing to
the walk, for every tree and config: the walk of any level containing the
excluded directory equals the walk with that whole subtree removed, so no
entry beneath it is ever yielded and the subtree is never descended
into. -/
theorem pruned_subtree_contributes_nothing
    (cfg : Config) (pats : List GitIgnorePattern) (base n : List Char)
    (ch es₁ es₂ : List FSEntry)
    (h : prunesDir cfg pats n (relJoin base n) = true) :
    walkFrom cfg pats base (es₁ ++ FSEntry.dir n ch :: es₂)
      = walkFrom cfg pats base (es₁ ++ es₂) := by
  unfold walkFrom
  rw [walkDirs_append, walkDirs_append, filesOut_append, filesOut_append]
  simp [walkDirs, walkEntryDirs, filesOut, h]

/-- C4 witness: with the default config and no patterns, the hidden
directory `.git` is pruned — walking a level that contains `.git/x` equals
walking the level without it. -/
theorem pruned_subtree_contributes_nothing_witness :
    walkFrom ⟨false, false, true, true⟩ [] []
        ([] ++ FSEntry.dir (str ".git") [.file (str "x") (some [])]
            :: [FSEntry.file (str "a.txt") (some (bytesOfAscii "a\n"))])
      = walkFrom ⟨false, false, true, true⟩ [] []
          ([] ++ [FSEntry.file (str "a.txt") (some (bytesOfAscii "a\n"))]) :=
  pruned_subtree_contributes_nothing ⟨false, false, true, true⟩ [] []
    (str ".git") [.file (str "x") (some [])] []
    [FSEntry.file (str "a.txt") (some (bytesOfAscii "a\n"))] (by decide)

/-- C7: whenever the sampled prefix (the first `min(sample_size, length)`
bytes) contains a `0x00` byte, `is_binary_file` returns `true`, whatever
the other bytes are; whenever the sample contains no `0x00` byte and is
valid UTF-8, it returns `false`. -/
theorem binary_detection (bytes : List Nat) (n : Nat) :
    ((bytes.take n).contains 0 = true → is_binary_file (some bytes) n = true)
    ∧ ((bytes.take n).contains 0 = false →
        utf8Decodable (bytes.take n) = true →
        is_binary_file (some bytes) n = false) := by
  constructor
  · intro h
    simp only [is_binary_file]
    rw [h]
    simp
  · intro h1 h2
    simp only [is_binary_file]
    rw [h1, h2]
    simp

/-- C7 witness: `[104, 0, 255]` (a null byte among non-UTF-8 bytes) is
binary; `[104, 105]` (plain ASCII) is text. -/
theorem binary_detection_witness :
    is_binary_file (some [104, 0, 255]) 8192 = true
    ∧ is_binary_file (some [104, 105]) 8192 = false :=
  ⟨(binary_detection [104, 0, 255] 8192).1 (by decide),
   (binary_detection [104, 105] 8192).2 (by decide) (by decide)⟩

/-- C8: a file whose open or read fails (contents `none`) is classified
binary rather than raising, and the walker's per-file filter therefore
skips it whenever `binary_check` is on, for every config, pattern list,
name and relative path. -/
theorem unreadable_file_fail_safe (n : Nat) (cfg : Config)
    (pats : List GitIgnorePattern) (fname rel : List Char)
    (h : cfg.binary_check = true) :
    is_binary_file none n = true
    ∧ skipsFile cfg pats fname rel none = true := by
  refine ⟨rfl, ?_⟩
  simp [skipsFile, is_binary_file, h]

/-- C8 witness: with the default config, an unreadable `f.txt` at the
root is skipped. -/
theorem unreadable_file_fail_safe_witness :
    is_binary_file none 8192 = true
    ∧ skipsFile ⟨false, false, true, true⟩ [] (str "f.txt") (str "f.txt")
        none = true :=
  unreadable_file_fail_safe 8192 ⟨false, false, true, true⟩ []
    (str "f.txt") (str "f.txt") rfl

/-- C9: when no `.gitignore` exists, `parse_gitignore` returns the empty
pattern list (and raises nothing — the embedding is total), and
`is_ignored_by_gitignore` with the empty list returns `false` for every
path and directory flag. -/
theorem missing_gitignore_empty (p : List Char) (d : Bool) :
    parse_gitignore none = [] ∧ is_ignored_by_gitignore p d [] = false :=
  ⟨rfl, rfl⟩

/-- C10: a readable file whose sampled bytes are empty (in particular a
zero-length file) is classified as text, not binary. -/
theorem empty_sample_is_text (bytes : List Nat) (n : Nat)
    (h : bytes.take n = []) :
    is_binary_file (some bytes) n = false := by
  simp only [is_binary_file, h]
  decide

/-- C10 witness: the zero-length file with the default sample size. -/
theorem empty_sample_is_text_witness :
    is_binary_file (some []) 8192 = false :=
  empty_sample_is_text [] 8192 rfl

end FsUtils
